import Mathlib

/-!
Shallow embedding of the `lurus-gushen` trading components that the claims
concern: the paper-trading account (`paper_account.py`), the risk manager
(`risk_manager.py`) and the JSON rule engine (`rule_engine.py`).

Python floats are modelled as exact rationals (`ℚ`); dictionaries are
modelled as insertion-ordered association lists, matching Python's dict
iteration order.  Mutation becomes explicit state passing.
-/

namespace Lurus

/-- Direction of an order or trade (vnpy `Direction`). -/
inductive Direction where
  | LONG
  | SHORT
deriving DecidableEq, Repr

/-- Order lifecycle status (vnpy `Status`). -/
inductive Status where
  | SUBMITTING
  | NOTTRADED
  | PARTTRADED
  | ALLTRADED
  | CANCELLED
  | REJECTED
deriving DecidableEq, Repr

/-- Order type (vnpy `OrderType`); the paper account handles LIMIT and MARKET. -/
inductive OrderType where
  | LIMIT
  | MARKET
deriving DecidableEq, Repr

/-- `PaperPosition`: simulated position tracking (volume, frozen, avg_price, pnl).
The `symbol`/`exchange` fields of the Python class are carried by the key of the
positions dictionary and therefore omitted here. -/
structure PaperPosition where
  volume : ℚ
  frozen : ℚ
  avg_price : ℚ
  pnl : ℚ
deriving DecidableEq, Repr

/-- A fresh `PaperPosition(symbol, exchange)`: all numeric fields start at 0. -/
def PaperPosition.init : PaperPosition :=
  { volume := 0, frozen := 0, avg_price := 0, pnl := 0 }

/-- `PaperPosition.update_trade`: buying recomputes the average price as a
volume-weighted mean; selling decrements volume, clamping at zero and
resetting the average price to zero when the position is emptied. -/
def PaperPosition.update_trade (p : PaperPosition) (direction : Direction)
    (volume price : ℚ) : PaperPosition :=
  match direction with
  | .LONG =>
    let total_cost := p.avg_price * p.volume + price * volume
    let volume' := p.volume + volume
    if volume' > 0 then
      { p with volume := volume', avg_price := total_cost / volume' }
    else
      { p with volume := volume' }
  | .SHORT =>
    let volume' := p.volume - volume
    if volume' ≤ 0 then
      { p with volume := 0, avg_price := 0 }
    else
      { p with volume := volume' }

/-- `PaperPosition.calculate_pnl`: unrealized P&L at the current price. -/
def PaperPosition.calculate_pnl (p : PaperPosition) (current_price : ℚ) : PaperPosition :=
  if p.volume > 0 ∧ p.avg_price > 0 then
    { p with pnl := (current_price - p.avg_price) * p.volume }
  else
    { p with pnl := 0 }

/-- Order data as tracked by the paper account.  `symbol` stands for the
Python `vt_symbol` key (symbol plus exchange suffix). -/
structure OrderData where
  symbol : String
  direction : Direction
  otype : OrderType
  price : ℚ
  volume : ℚ
  traded : ℚ
  status : Status
deriving DecidableEq, Repr

/-- Order request (vnpy `OrderRequest`). -/
structure OrderRequest where
  symbol : String
  direction : Direction
  otype : OrderType
  price : ℚ
  volume : ℚ
deriving DecidableEq, Repr

/-- Tick data fields used by the matching engine. -/
structure TickData where
  last_price : ℚ
  ask_price_1 : ℚ
  bid_price_1 : ℚ
deriving DecidableEq, Repr

/-- Look up the first binding of a key in an association list. -/
def alistFind? {β : Type} (l : List (String × β)) (k : String) : Option β :=
  match l with
  | [] => none
  | (k', v) :: rest => if k' = k then some v else alistFind? rest k

/-- Update the first binding of `k` by `f`; if absent, append `f default`
(Python's `if k not in d: d[k] = default` followed by in-place mutation). -/
def alistUpdate {β : Type} (l : List (String × β)) (k : String) (dflt : β)
    (f : β → β) : List (String × β) :=
  match l with
  | [] => [(k, f dflt)]
  | (k', v) :: rest =>
    if k' = k then (k', f v) :: rest else (k', v) :: alistUpdate rest k dflt f

/-- Look up an order by id. -/
def ordFind? (l : List (ℕ × OrderData)) (k : ℕ) : Option OrderData :=
  match l with
  | [] => none
  | (k', v) :: rest => if k' = k then some v else ordFind? rest k

/-- Set the binding of an order id (replace the first occurrence, else append):
Python's shared-object mutation of `self.orders[orderid]`. -/
def ordSet (l : List (ℕ × OrderData)) (k : ℕ) (v : OrderData) : List (ℕ × OrderData) :=
  match l with
  | [] => [(k, v)]
  | (k', v') :: rest =>
    if k' = k then (k, v) :: rest else (k', v') :: ordSet rest k v

/-- `PaperAccount` state: cash, fees configuration, positions, orders. -/
structure PaperAccount where
  balance : ℚ
  frozen : ℚ
  commission_rate : ℚ
  stamp_duty_rate : ℚ
  slippage : ℚ
  positions : List (String × PaperPosition)
  orders : List (ℕ × OrderData)
  active_orders : List (ℕ × OrderData)
  order_count : ℕ
  trade_count : ℕ
  total_commission : ℚ
deriving DecidableEq, Repr

/-- A freshly connected paper account with the given capital and fee settings. -/
def initAccount (capital commission_rate stamp_duty_rate slippage : ℚ) : PaperAccount :=
  { balance := capital, frozen := 0,
    commission_rate := commission_rate, stamp_duty_rate := stamp_duty_rate,
    slippage := slippage,
    positions := [], orders := [], active_orders := [],
    order_count := 0, trade_count := 0, total_commission := 0 }

/-- A rational is an exact multiple of 100 (the float test `volume % 100 != 0`). -/
def multipleOf100 (v : ℚ) : Bool := (v / 100).den = 1

/-- `PaperAccount._validate_order`: lot-size, funds and position checks. -/
def PaperAccount.validate_order (a : PaperAccount) (req : OrderRequest) :
    Bool × String :=
  if req.volume < 100 then
    (false, "Volume must be at least 100 shares")
  else if ¬ multipleOf100 req.volume then
    (false, "Volume must be multiple of 100")
  else if req.direction = .LONG then
    let order_value := req.price * req.volume
    let commission := order_value * a.commission_rate
    let required := order_value + commission
    let available := a.balance - a.frozen
    if required > available then (false, "Insufficient funds")
    else (true, "")
  else
    match alistFind? a.positions req.symbol with
    | none => (false, "Insufficient position")
    | some pos =>
      if pos.volume < req.volume then (false, "Insufficient position")
      else (true, "")

/-- `PaperAccount.send_order`: validate, freeze funds for buys, store the
order; returns the vt_orderid (empty string on rejection) and the new state. -/
def PaperAccount.send_order (a : PaperAccount) (req : OrderRequest) :
    String × PaperAccount :=
  let order_count := a.order_count + 1
  let orderid := order_count
  match a.validate_order req with
  | (false, _msg) =>
    ("", { a with order_count := order_count })
  | (true, _) =>
    let bf :=
      if req.direction = .LONG then
        let order_value := req.price * req.volume
        let commission := order_value * a.commission_rate
        let total_frozen := order_value + commission
        (a.balance - total_frozen, a.frozen + total_frozen)
      else (a.balance, a.frozen)
    let order : OrderData :=
      { symbol := req.symbol, direction := req.direction, otype := req.otype,
        price := req.price, volume := req.volume, traded := 0,
        status := .NOTTRADED }
    ("PAPER." ++ ("PAPER_" ++ toString orderid),
     { a with order_count := order_count,
              balance := bf.1, frozen := bf.2,
              orders := a.orders ++ [(orderid, order)],
              active_orders := a.active_orders ++ [(orderid, order)] })

/-- `PaperAccount.cancel_order`: no-op when the order is not active; otherwise
unfreeze the remaining reservation of a buy, mark CANCELLED, and drop it from
the active set. -/
def PaperAccount.cancel_order (a : PaperAccount) (orderid : ℕ) : PaperAccount :=
  match ordFind? a.active_orders orderid with
  | none => a
  | some order =>
    let bf :=
      if order.direction = .LONG then
        let remaining_volume := order.volume - order.traded
        let order_value := order.price * remaining_volume
        let commission := order_value * a.commission_rate
        let total_unfrozen := order_value + commission
        (a.balance + total_unfrozen, a.frozen - total_unfrozen)
      else (a.balance, a.frozen)
    let order' := { order with status := Status.CANCELLED }
    { a with balance := bf.1, frozen := bf.2,
             orders := ordSet a.orders orderid order',
             active_orders := a.active_orders.filter (fun e => e.1 ≠ orderid) }

/-- The fill-price decision of `_match_orders` before slippage: `some p`
when the order can fill at raw price `p`, `none` otherwise. -/
def canFillPrice (order : OrderData) (tick : TickData) : Option ℚ :=
  match order.otype with
  | .MARKET =>
    match order.direction with
    | .LONG => some (if tick.ask_price_1 > 0 then tick.ask_price_1 else tick.last_price)
    | .SHORT => some (if tick.bid_price_1 > 0 then tick.bid_price_1 else tick.last_price)
  | .LIMIT =>
    match order.direction with
    | .LONG =>
      if tick.ask_price_1 > 0 ∧ tick.ask_price_1 ≤ order.price then some order.price
      else if tick.last_price ≤ order.price then some order.price
      else none
    | .SHORT =>
      if tick.bid_price_1 > 0 ∧ tick.bid_price_1 ≥ order.price then some order.price
      else if tick.last_price ≥ order.price then some order.price
      else none

/-- Fill price with slippage applied (buys pay up, sells receive less). -/
def fillPriceOf (a : PaperAccount) (order : OrderData) (tick : TickData) : Option ℚ :=
  match canFillPrice order tick with
  | none => none
  | some fp =>
    match order.direction with
    | .LONG => some (fp * (1 + a.slippage))
    | .SHORT => some (fp * (1 - a.slippage))

/-- The order as stored back by `_execute_trade`: traded bumped by the full
remaining volume, status recomputed. -/
def executedOrder (order : OrderData) : OrderData :=
  let volume := order.volume - order.traded
  let traded := order.traded + volume
  { order with traded := traded,
               status := if traded ≥ order.volume then .ALLTRADED else .PARTTRADED }

/-- `PaperAccount._execute_trade`: fill the whole remaining volume at `price`,
charge commission (and stamp duty on sells), update the position,
unfreeze/settle cash, and store the updated order. -/
def PaperAccount.execute_trade (a : PaperAccount) (orderid : ℕ)
    (order : OrderData) (price : ℚ) : PaperAccount :=
  let volume := order.volume - order.traded
  let trade_value := price * volume
  let commission := trade_value * a.commission_rate
  let stamp_duty := if order.direction = .SHORT then trade_value * a.stamp_duty_rate else 0
  let total_cost := commission + stamp_duty
  let positions := alistUpdate a.positions order.symbol PaperPosition.init
    (fun p => p.update_trade order.direction volume price)
  let bf :=
    match order.direction with
    | .LONG =>
      let order_value := order.price * volume
      let commission_frozen := order_value * a.commission_rate
      let total_unfrozen := order_value + commission_frozen
      (a.balance + total_unfrozen - (trade_value + total_cost), a.frozen - total_unfrozen)
    | .SHORT =>
      (a.balance + (trade_value - total_cost), a.frozen)
  { a with trade_count := a.trade_count + 1,
           total_commission := a.total_commission + total_cost,
           positions := positions,
           balance := bf.1, frozen := bf.2,
           orders := ordSet a.orders orderid (executedOrder order) }

/-- One step of the `_match_orders` loop over the snapshot of active orders:
the accumulator carries the evolving account and the ids to remove. -/
def matchStep (vt_symbol : String) (tick : TickData)
    (acc : PaperAccount × List ℕ) (e : ℕ × OrderData) : PaperAccount × List ℕ :=
  if e.2.symbol ≠ vt_symbol then acc
  else
    match fillPriceOf acc.1 e.2 tick with
    | none => acc
    | some fp => (acc.1.execute_trade e.1 e.2 fp, acc.2 ++ [e.1])

/-- `PaperAccount._match_orders`: run all active orders of the symbol through
the matcher, then delete the filled ones from the active set. -/
def PaperAccount.match_orders (a : PaperAccount) (vt_symbol : String)
    (tick : TickData) : PaperAccount :=
  let res := a.active_orders.foldl (matchStep vt_symbol tick) (a, [])
  { res.1 with active_orders := res.1.active_orders.filter (fun e => ¬ res.2.contains e.1) }

/-- `PaperAccount.update_tick`: refresh the symbol's unrealized P&L (only if a
position exists) and trigger matching. -/
def PaperAccount.update_tick (a : PaperAccount) (vt_symbol : String)
    (tick : TickData) : PaperAccount :=
  let positions :=
    if (alistFind? a.positions vt_symbol).isSome then
      alistUpdate a.positions vt_symbol PaperPosition.init
        (fun p => p.calculate_pnl tick.last_price)
    else a.positions
  PaperAccount.match_orders { a with positions := positions } vt_symbol tick

/-- External events processed by the paper account. -/
inductive Event where
  | send (req : OrderRequest)
  | tickEv (vt_symbol : String) (tick : TickData)
  | cancel (orderid : ℕ)

/-- One event step of the paper account. -/
def PaperAccount.step (a : PaperAccount) : Event → PaperAccount
  | .send req => (a.send_order req).2
  | .tickEv s t => a.update_tick s t
  | .cancel oid => a.cancel_order oid

/-- Run a sequence of events. -/
def PaperAccount.run (a : PaperAccount) (evs : List Event) : PaperAccount :=
  evs.foldl PaperAccount.step a

/-- The conserved quantity of the claimed invariant:
balance + frozen + Σ position volume × avg_price. -/
def PaperAccount.invariantValue (a : PaperAccount) : ℚ :=
  a.balance + a.frozen + (a.positions.map (fun e => e.2.volume * e.2.avg_price)).sum

/-- Realized P&L booked by one fill: zero for buys; for sells, proceeds at the
fill price minus the released average cost (the `min` accounts for the clamp
of `update_trade` when more is sold than held). -/
def fillRealized (positions : List (String × PaperPosition)) (order : OrderData)
    (price : ℚ) : ℚ :=
  match order.direction with
  | .LONG => 0
  | .SHORT =>
    let p := (alistFind? positions order.symbol).getD PaperPosition.init
    let volume := order.volume - order.traded
    price * volume - p.avg_price * min volume p.volume

/-- Instrumented matcher step: same account evolution as `matchStep`, plus the
running sum of realized P&L of the executed sells. -/
def matchStepR (vt_symbol : String) (tick : TickData)
    (acc : (PaperAccount × List ℕ) × ℚ) (e : ℕ × OrderData) :
    (PaperAccount × List ℕ) × ℚ :=
  (matchStep vt_symbol tick acc.1 e,
   acc.2 +
     (if e.2.symbol ≠ vt_symbol then 0
      else match fillPriceOf acc.1.1 e.2 tick with
        | none => 0
        | some fp => fillRealized acc.1.1.positions e.2 fp))

/-- Realized P&L booked while processing one event. -/
def PaperAccount.stepRealized (a : PaperAccount) : Event → ℚ
  | .send _ => 0
  | .cancel _ => 0
  | .tickEv vt_symbol tick =>
    let positions :=
      if (alistFind? a.positions vt_symbol).isSome then
        alistUpdate a.positions vt_symbol PaperPosition.init
          (fun p => p.calculate_pnl tick.last_price)
      else a.positions
    let a' := { a with positions := positions }
    (a'.active_orders.foldl (matchStepR vt_symbol tick) ((a', []), 0)).2

/-- Realized P&L booked over a sequence of events. -/
def PaperAccount.runRealized (a : PaperAccount) : List Event → ℚ
  | [] => 0
  | e :: evs => a.stepRealized e + (a.step e).runRealized evs

/-- Reachability invariant needed for the conservation law: position volumes
are non-negative and every active order still has volume to fill. -/
def AccInv (a : PaperAccount) : Prop :=
  (∀ e ∈ a.positions, 0 ≤ e.2.volume) ∧
  (∀ e ∈ a.active_orders, e.2.traded < e.2.volume)

/-- Book value of one position: volume × average price. -/
def posVal (p : PaperPosition) : ℚ := p.volume * p.avg_price

/-- Book value of the whole position map. -/
def posSum (l : List (String × PaperPosition)) : ℚ :=
  (l.map (fun e => posVal e.2)).sum

/-- The conserved quantity plus the cumulated fees; constant along runs up to
realized P&L. -/
def acctG (a : PaperAccount) : ℚ := a.invariantValue + a.total_commission

/-- Example account used in the concrete scenarios: capital 100,000,
commission 0.03%, stamp duty 0.1%, slippage 0.1%. -/
def exAccount : PaperAccount := initAccount 100000 (3/10000) (1/1000) (1/1000)

/-- Limit buy of 1000 shares at 10.50. -/
def exBuyReq : OrderRequest :=
  { symbol := "600000.SSE", direction := .LONG, otype := .LIMIT, price := 21/2, volume := 1000 }

/-- Limit sell of 1000 shares at 20.00. -/
def exSellReq : OrderRequest :=
  { symbol := "600000.SSE", direction := .SHORT, otype := .LIMIT, price := 20, volume := 1000 }

/-- Tick whose best ask 10.48 is below the buy limit 10.50. -/
def exTick1 : TickData := { last_price := 1049/100, ask_price_1 := 1048/100, bid_price_1 := 1047/100 }

/-- Tick whose best bid 20.00 reaches the sell limit 20.00. -/
def exTick2 : TickData := { last_price := 20, ask_price_1 := 2001/100, bid_price_1 := 20 }

/-- Tick that does not reach the buy limit 10.50 (ask and last at 10.60). -/
def exTickNoFill : TickData := { last_price := 53/5, ask_price_1 := 53/5, bid_price_1 := 1049/100 }

/-- Buy, get filled, sell at a profit, get filled. -/
def exEvents : List Event :=
  [Event.send exBuyReq, Event.tickEv "600000.SSE" exTick1,
   Event.send exSellReq, Event.tickEv "600000.SSE" exTick2]

/-- The account right after submitting the example buy order. -/
def exAfterBuy : PaperAccount := (exAccount.send_order exBuyReq).2

/-- The buy order as stored in the books after submission. -/
def exBuyOrder : OrderData :=
  { symbol := "600000.SSE", direction := .LONG, otype := .LIMIT, price := 21/2,
    volume := 1000, traded := 0, status := .NOTTRADED }

/-- A rejectable request: 150 shares is not a round lot. -/
def exOddLotReq : OrderRequest :=
  { symbol := "600000.SSE", direction := .LONG, otype := .LIMIT, price := 21/2, volume := 150 }

/-- The sell order as stored in the books after submission. -/
def exSellOrder : OrderData :=
  { symbol := "600000.SSE", direction := .SHORT, otype := .LIMIT, price := 20,
    volume := 1000, traded := 0, status := .NOTTRADED }

/-- `RiskLimits`: risk control parameters (risk_manager.py). -/
structure RiskLimits where
  max_positions : ℤ
  position_size : ℚ
  max_drawdown : ℚ
  daily_loss_limit : ℚ
  sector_concentration : ℚ
deriving DecidableEq, Repr

/-- `RiskManager` mutable state (sector exposure is not needed by the claims
and is omitted: no claimed operation reads or writes it). -/
structure RiskManager where
  limits : RiskLimits
  peak_portfolio_value : ℚ
  daily_start_value : ℚ
  current_drawdown : ℚ
  daily_pnl : ℚ
deriving DecidableEq, Repr

/-- A signal row; the risk filters only inspect the `vt_symbol` column. -/
structure Signal where
  vt_symbol : String
deriving DecidableEq, Repr

/-- `RiskManager._update_tracking`: raise the peak if exceeded, then recompute
the drawdown (zero while the peak is non-positive). -/
def RiskManager.update_tracking (r : RiskManager) (portfolio_value : ℚ) : RiskManager :=
  let peak :=
    if portfolio_value > r.peak_portfolio_value then portfolio_value
    else r.peak_portfolio_value
  let dd := if peak > 0 then (peak - portfolio_value) / peak else 0
  { r with peak_portfolio_value := peak, current_drawdown := dd }

/-- `RiskManager._is_trading_allowed`: blocked exactly when the current
drawdown strictly exceeds the configured maximum. -/
def RiskManager.is_trading_allowed (r : RiskManager) : Bool :=
  if r.current_drawdown > r.limits.max_drawdown then false else true

/-- `RiskManager.apply_filters`: update tracking, gate on drawdown, then cap
the number of entries by the free position slots.  Returns the updated
manager state together with the filtered signals. -/
def RiskManager.apply_filters (r : RiskManager) (signals : List Signal)
    (current_positions : List (String × ℚ)) (portfolio_value : ℚ) :
    RiskManager × List Signal :=
  if signals = [] then (r, signals)
  else
    let r' := r.update_tracking portfolio_value
    if r'.is_trading_allowed = false then (r', [])
    else
      let current_count : ℤ := ((current_positions.filter (fun v => v.2 ≠ 0)).length : ℤ)
      let available_slots := r'.limits.max_positions - current_count
      if available_slots ≤ 0 then
        (r', signals.filter (fun s => (current_positions.map Prod.fst).contains s.vt_symbol))
      else
        (r', signals.take available_slots.toNat)

/-- The comparand of a rule condition: a number or a string (rule_engine.py
stores `value: float | str`). -/
inductive CondValue where
  | num (q : ℚ)
  | str (s : String)
deriving DecidableEq, Repr

/-- `RuleCondition`: one parsed rule condition (the `params` dict is never
read by condition evaluation and is omitted). -/
structure RuleCondition where
  indicator : String
  operator : String
  value : CondValue
  logic : String
deriving DecidableEq, Repr

/-- Numeric value of one decimal digit character. -/
def digitVal (c : Char) : ℕ := c.toNat - 48

/-- Natural number denoted by a digit string. -/
def natOfDigits (l : List Char) : ℕ := l.foldl (fun a c => 10 * a + digitVal c) 0

/-- Modelled from Python `float(str)`, restricted to the plain decimal forms
`[+-]digits`, `[+-]digits.digits`, `[+-].digits`, `[+-]digits.`; any other
string fails to convert (`none`). -/
def parseDecimal (s : String) : Option ℚ :=
  let cs := s.toList
  let sb : ℚ × List Char :=
    match cs with
    | '-' :: r => (-1, r)
    | '+' :: r => (1, r)
    | r => (1, r)
  match sb.2.splitOn '.' with
  | [ip] =>
    if ip ≠ [] ∧ ip.all Char.isDigit then some (sb.1 * natOfDigits ip) else none
  | [ip, fp] =>
    if (ip ≠ [] ∨ fp ≠ []) ∧ ip.all Char.isDigit ∧ fp.all Char.isDigit then
      some (sb.1 * ((natOfDigits ip : ℚ) + (natOfDigits fp : ℚ) / (10 : ℚ) ^ fp.length))
    else none
  | _ => none

/-- Python `float(compare_value)`: a number converts to itself, a string goes
through decimal parsing. -/
def CondValue.toFloat? : CondValue → Option ℚ
  | .num q => some q
  | .str s => parseDecimal s

/-- `RuleEngine._evaluate_condition`: conservative single-condition
evaluation — missing indicator, unconvertible comparand, crossover operators
and unknown operators all yield `false`. -/
def evaluate_condition (rule : RuleCondition)
    (indicator_values : List (String × ℚ)) : Bool :=
  match alistFind? indicator_values rule.indicator with
  | none => false
  | some current_value =>
    let compare_value : CondValue :=
      match rule.value with
      | .str s =>
        match alistFind? indicator_values s with
        | some v => .num v
        | none => .str s
      | v => v
    match compare_value.toFloat? with
    | none => false
    | some cv =>
      let op := rule.operator
      if op = ">" ∨ op = "gt" then decide (current_value > cv)
      else if op = "<" ∨ op = "lt" then decide (current_value < cv)
      else if op = ">=" ∨ op = "ge" then decide (current_value ≥ cv)
      else if op = "<=" ∨ op = "le" then decide (current_value ≤ cv)
      else if op = "==" ∨ op = "eq" then decide (|current_value - cv| < 1/10000)
      else if op = "!=" ∨ op = "ne" then decide (|current_value - cv| ≥ 1/10000)
      else if op = "cross_above" ∨ op = "cross_below" then false
      else false

/-- The `exit_rules` threshold block of the strategy configuration; `none`
models an absent key (Python `dict.get` returning `None`). -/
structure ExitConfig where
  take_profit : Option ℚ
  stop_loss : Option ℚ
  holding_days : Option ℤ
  trailing_stop : Option ℚ
deriving DecidableEq, Repr

/-- `RuleEngine`: parsed entry/exit conditions plus the raw exit thresholds. -/
structure RuleEngine where
  entry_rules : List RuleCondition
  exit_rules : List RuleCondition
  exit_config : ExitConfig
deriving DecidableEq, Repr

/-- Take-profit guard: key present and truthy, entry price positive, and the
P&L percentage at or above the threshold. -/
def tpTriggered (tp : Option ℚ) (entry_price current_price : ℚ) : Bool :=
  match tp with
  | none => false
  | some v =>
    decide (v ≠ 0) && decide (0 < entry_price) &&
      decide ((current_price - entry_price) / entry_price ≥ v)

/-- Stop-loss guard: key present and truthy, entry price positive, and the
P&L percentage at or below the negated threshold. -/
def slTriggered (sl : Option ℚ) (entry_price current_price : ℚ) : Bool :=
  match sl with
  | none => false
  | some v =>
    decide (v ≠ 0) && decide (0 < entry_price) &&
      decide ((current_price - entry_price) / entry_price ≤ -v)

/-- Max-holding-days guard: key present and truthy, and holding days at or
above the limit. -/
def hdTriggered (hd : Option ℤ) (holding_days : ℤ) : Bool :=
  match hd with
  | none => false
  | some m => decide (m ≠ 0) && decide (holding_days ≥ m)

/-- `RuleEngine.check_exit_signal`: fixed priority — take-profit, stop-loss,
max holding days, then the first satisfied declarative exit condition
(trailing stop is a `pass` in the source).  The numeric suffix that the
source interpolates into the reason string is elided. -/
def RuleEngine.check_exit_signal (eng : RuleEngine)
    (entry_price current_price : ℚ) (holding_days : ℤ)
    (indicator_values : List (String × ℚ)) : Bool × String :=
  let cfg := eng.exit_config
  if tpTriggered cfg.take_profit entry_price current_price then
    (true, "take_profit")
  else if slTriggered cfg.stop_loss entry_price current_price then
    (true, "stop_loss")
  else if hdTriggered cfg.holding_days holding_days then
    (true, "max_holding_days")
  else
    match eng.exit_rules.find?
        (fun rule => ¬ indicator_values.isEmpty && evaluate_condition rule indicator_values) with
    | some rule => (true, "condition_" ++ rule.indicator)
    | none => (false, "")

/-- The loop combining condition results with each predecessor's
`logic` connective (`"and"` means conjunction, anything else disjunction). -/
def combineLogic (first : Bool) (rest : List (String × Bool)) : Bool :=
  match rest with
  | [] => first
  | (logicPrev, b) :: tail =>
    combineLogic (if logicPrev = "and" then first && b else first || b) tail

/-- `RuleEngine.check_entry_signal`: evaluate every entry condition, combine
them left to right through the `logic` connectives, and report the fraction
of satisfied conditions as signal strength. -/
def RuleEngine.check_entry_signal (eng : RuleEngine)
    (indicator_values : List (String × ℚ)) : Bool × ℚ :=
  if eng.entry_rules.isEmpty then (false, 0)
  else
    let conditions_met := eng.entry_rules.map (fun r => evaluate_condition r indicator_values)
    let logic_operators := eng.entry_rules.map (fun r => r.logic)
    let final_result :=
      combineLogic (conditions_met.headD false) (logic_operators.zip conditions_met.tail)
    (final_result, ((conditions_met.count true : ℕ) : ℚ) / (conditions_met.length : ℚ))

/-- Default-style limits with drawdown ceiling 15%. -/
def exLimits : RiskLimits :=
  { max_positions := 30, position_size := 3/100, max_drawdown := 3/20,
    daily_loss_limit := 1/20, sector_concentration := 3/10 }

/-- Risk manager tracking a peak equity of 120,000. -/
def exRisk : RiskManager :=
  { limits := exLimits, peak_portfolio_value := 120000, daily_start_value := 0,
    current_drawdown := 0, daily_pnl := 0 }

/-- A signal for an arbitrary symbol. -/
def exSignalA : Signal := { vt_symbol := "600000.SSE" }

/-- Limits with a single position slot. -/
def exCapLimits : RiskLimits :=
  { max_positions := 1, position_size := 3/100, max_drawdown := 3/20,
    daily_loss_limit := 1/20, sector_concentration := 3/10 }

/-- Fresh risk manager with the single-slot limits. -/
def exCapRisk : RiskManager :=
  { limits := exCapLimits, peak_portfolio_value := 0, daily_start_value := 0,
    current_drawdown := 0, daily_pnl := 0 }

/-- One held position ("AAA", 1 share) and one zero-volume entry ("BBB", 0). -/
def exPositions : List (String × ℚ) := [("AAA", 1), ("BBB", 0)]

/-- A signal for the zero-volume symbol. -/
def exSignalB : Signal := { vt_symbol := "BBB" }

/-- Exit thresholds: take-profit 10%, stop-loss 5%, max holding 1 day. -/
def exExitConfig : ExitConfig :=
  { take_profit := some (1/10), stop_loss := some (1/20), holding_days := some 1,
    trailing_stop := none }

/-- A declarative condition RSI > 0 (satisfied by the sample values). -/
def exRsiRule : RuleCondition :=
  { indicator := "rsi", operator := ">", value := .num 0, logic := "and" }

/-- A condition on an indicator absent from the sample values. -/
def exBadRule : RuleCondition :=
  { indicator := "macd", operator := ">", value := .str "oops", logic := "and" }

/-- A condition whose comparand string neither names an indicator nor parses
as a number. -/
def exBadCmpRule : RuleCondition :=
  { indicator := "rsi", operator := ">", value := .str "oops", logic := "and" }

/-- Engine with the sample exit configuration and one declarative exit rule. -/
def exEngine : RuleEngine :=
  { entry_rules := [], exit_rules := [exRsiRule], exit_config := exExitConfig }

/-- Engine with two entry rules (one satisfiable, one with a missing
indicator). -/
def exEntryEngine : RuleEngine :=
  { entry_rules := [exRsiRule, exBadRule], exit_rules := [],
    exit_config := { take_profit := none, stop_loss := none, holding_days := none,
                     trailing_stop := none } }

/-- Sample indicator values: only RSI is available. -/
def exIndVals : List (String × ℚ) := [("rsi", 50)]

theorem invariantValue_eq (a : PaperAccount) :
    a.invariantValue = a.balance + a.frozen + posSum a.positions := rfl

theorem posSum_cons (k : String) (p : PaperPosition) (l : List (String × PaperPosition)) :
    posSum ((k, p) :: l) = posVal p + posSum l := by
  simp [posSum]

theorem alistFind_nonneg (l : List (String × PaperPosition)) (k : String)
    (h : ∀ e ∈ l, 0 ≤ e.2.volume) :
    0 ≤ ((alistFind? l k).getD PaperPosition.init).volume := by
  induction l with
  | nil => simp [alistFind?, PaperPosition.init]
  | cons e rest ih =>
    obtain ⟨k', v⟩ := e
    by_cases hk : k' = k
    · simpa [alistFind?, hk] using h (k, v) (by simp [hk])
    · simpa [alistFind?, hk] using ih (fun e he => h e (List.mem_cons_of_mem _ he))

theorem posSum_update (l : List (String × PaperPosition)) (k : String)
    (f : PaperPosition → PaperPosition) :
    posSum (alistUpdate l k PaperPosition.init f)
      = posSum l + posVal (f ((alistFind? l k).getD PaperPosition.init))
        - posVal ((alistFind? l k).getD PaperPosition.init) := by
  induction l with
  | nil => simp [alistUpdate, alistFind?, posSum, posVal, PaperPosition.init]
  | cons e rest ih =>
    obtain ⟨k', v⟩ := e
    by_cases hk : k' = k
    · simp [alistUpdate, alistFind?, hk, posSum_cons]
      ring
    · simp only [alistUpdate, alistFind?, hk, if_false, posSum_cons, ih]
      ring

theorem alistUpdate_nonneg (l : List (String × PaperPosition)) (k : String)
    (f : PaperPosition → PaperPosition)
    (h : ∀ e ∈ l, 0 ≤ e.2.volume)
    (hf : ∀ p, 0 ≤ p.volume → 0 ≤ (f p).volume) :
    ∀ e ∈ alistUpdate l k PaperPosition.init f, 0 ≤ e.2.volume := by
  induction l with
  | nil =>
    intro e he
    simp [alistUpdate] at he
    simpa [he] using hf PaperPosition.init (by simp [PaperPosition.init])
  | cons e₀ rest ih =>
    obtain ⟨k', v⟩ := e₀
    by_cases hk : k' = k
    · intro e he
      simp only [alistUpdate, hk, if_pos rfl] at he
      rcases List.mem_cons.mp he with h1 | h2
      · simpa [h1] using hf v (h (k', v) (by simp))
      · exact h e (List.mem_cons_of_mem _ h2)
    · intro e he
      simp only [alistUpdate, hk, if_false] at he
      rcases List.mem_cons.mp he with h1 | h2
      · exact h e (by simp [h1])
      · exact ih (fun e he => h e (List.mem_cons_of_mem _ he)) e h2

theorem update_trade_long_val (p : PaperPosition) (v price : ℚ)
    (hp : 0 ≤ p.volume) (hv : 0 < v) :
    posVal (p.update_trade .LONG v price) = posVal p + price * v := by
  have hpos : p.volume + v > 0 := by linarith
  simp only [PaperPosition.update_trade, if_pos hpos, posVal]
  field_simp
  ring

theorem update_trade_short_val (p : PaperPosition) (v price : ℚ) :
    posVal (p.update_trade .SHORT v price)
      = posVal p - p.avg_price * min v p.volume := by
  simp only [PaperPosition.update_trade, posVal]
  by_cases h : p.volume - v ≤ 0
  · have : min v p.volume = p.volume := min_eq_right (by linarith)
    simp [h, this]
    ring
  · have : min v p.volume = v := min_eq_left (by linarith)
    simp [h, this]
    ring

theorem update_trade_nonneg (d : Direction) (v price : ℚ) (hv : 0 ≤ v) :
    ∀ p : PaperPosition, 0 ≤ p.volume → 0 ≤ (p.update_trade d v price).volume := by
  intro p hp
  cases d with
  | LONG =>
    simp only [PaperPosition.update_trade]
    split <;> simp <;> linarith
  | SHORT =>
    simp only [PaperPosition.update_trade]
    split
    · simp
    · rename_i h
      simp
      linarith

theorem execute_trade_G (a : PaperAccount) (oid : ℕ) (order : OrderData) (price : ℚ)
    (hpos : ∀ e ∈ a.positions, 0 ≤ e.2.volume) (hrem : order.traded < order.volume) :
    acctG (a.execute_trade oid order price)
      = acctG a + fillRealized a.positions order price := by
  have hv : 0 < order.volume - order.traded := by linarith
  have hp0 := alistFind_nonneg a.positions order.symbol hpos
  cases hdir : order.direction with
  | LONG =>
    simp only [acctG, invariantValue_eq, PaperAccount.execute_trade, fillRealized, hdir,
      posSum_update]
    rw [update_trade_long_val _ _ _ hp0 hv]
    simp
    ring
  | SHORT =>
    simp only [acctG, invariantValue_eq, PaperAccount.execute_trade, fillRealized, hdir,
      posSum_update]
    rw [update_trade_short_val]
    simp
    ring

theorem execute_trade_active (a : PaperAccount) (oid : ℕ) (order : OrderData) (price : ℚ) :
    (a.execute_trade oid order price).active_orders = a.active_orders := rfl

theorem execute_trade_posnonneg (a : PaperAccount) (oid : ℕ) (order : OrderData) (price : ℚ)
    (hpos : ∀ e ∈ a.positions, 0 ≤ e.2.volume) (hrem : order.traded < order.volume) :
    ∀ e ∈ (a.execute_trade oid order price).positions, 0 ≤ e.2.volume := by
  simp only [PaperAccount.execute_trade]
  exact alistUpdate_nonneg _ _ _ hpos
    (update_trade_nonneg order.direction _ price (by linarith))

theorem foldR_fst (s : String) (t : TickData) (l : List (ℕ × OrderData)) :
    ∀ (x : PaperAccount × List ℕ) (q : ℚ),
      (l.foldl (matchStepR s t) (x, q)).1 = l.foldl (matchStep s t) x := by
  induction l with
  | nil => intro x q; rfl
  | cons e rest ih =>
    intro x q
    simp only [List.foldl_cons, matchStepR]
    exact ih _ _

theorem matchFold_G (s : String) (t : TickData) (l : List (ℕ × OrderData)) :
    ∀ (a : PaperAccount) (rem : List ℕ) (q : ℚ),
      (∀ e ∈ l, e.2.traded < e.2.volume) →
      (∀ e ∈ a.positions, 0 ≤ e.2.volume) →
      acctG ((l.foldl (matchStepR s t) ((a, rem), q)).1.1)
          = acctG a + ((l.foldl (matchStepR s t) ((a, rem), q)).2 - q)
      ∧ (∀ e ∈ ((l.foldl (matchStepR s t) ((a, rem), q)).1.1).positions, 0 ≤ e.2.volume)
      ∧ ((l.foldl (matchStepR s t) ((a, rem), q)).1.1).active_orders = a.active_orders := by
  induction l with
  | nil =>
    intro a rem q _ hpos
    refine ⟨by simp, hpos, rfl⟩
  | cons e rest ih =>
    intro a rem q hl hpos
    have hrem : e.2.traded < e.2.volume := hl e (by simp)
    have hl' : ∀ e' ∈ rest, e'.2.traded < e'.2.volume :=
      fun e' he' => hl e' (List.mem_cons_of_mem _ he')
    by_cases hsym : e.2.symbol ≠ s
    · simp only [List.foldl_cons, matchStepR, matchStep, if_pos hsym]
      simpa using ih a rem (q + 0) hl' hpos
    · rcases hfp : fillPriceOf a e.2 t with _ | fp
      · simp only [List.foldl_cons, matchStepR, matchStep, if_neg hsym, hfp]
        simpa using ih a rem (q + 0) hl' hpos
      · simp only [List.foldl_cons, matchStepR, matchStep, if_neg hsym, hfp]
        have hG := execute_trade_G a e.1 e.2 fp hpos hrem
        have hpos' := execute_trade_posnonneg a e.1 e.2 fp hpos hrem
        obtain ⟨ih1, ih2, ih3⟩ :=
          ih (a.execute_trade e.1 e.2 fp) (rem ++ [e.1])
            (q + fillRealized a.positions e.2 fp) hl' hpos'
        refine ⟨?_, ih2, by rw [ih3, execute_trade_active]⟩
        rw [ih1, hG]
        ring

theorem validate_true_volume (a : PaperAccount) (req : OrderRequest)
    (h : (a.validate_order req).1 = true) : 100 ≤ req.volume := by
  by_cases h1 : req.volume < 100
  · simp [PaperAccount.validate_order, h1] at h
  · linarith [not_lt.mp h1]

theorem send_order_positions (a : PaperAccount) (req : OrderRequest) :
    (a.send_order req).2.positions = a.positions := by
  rcases hv : a.validate_order req with ⟨b, msg⟩
  cases b <;> simp [PaperAccount.send_order, hv]

theorem send_order_G (a : PaperAccount) (req : OrderRequest) :
    acctG (a.send_order req).2 = acctG a := by
  rcases hv : a.validate_order req with ⟨b, msg⟩
  cases b
  · simp [PaperAccount.send_order, hv, acctG, invariantValue_eq]
  · by_cases hd : req.direction = .LONG
    · simp only [PaperAccount.send_order, hv, hd, acctG, invariantValue_eq, if_pos]
      ring
    · simp [PaperAccount.send_order, hv, hd, acctG, invariantValue_eq]

theorem send_order_active (a : PaperAccount) (req : OrderRequest) :
    (a.send_order req).2.active_orders = a.active_orders ∨
    ∃ order : OrderData,
      (a.send_order req).2.active_orders = a.active_orders ++ [(a.order_count + 1, order)]
      ∧ order.traded = 0 ∧ order.volume = req.volume ∧ 100 ≤ req.volume := by
  rcases hv : a.validate_order req with ⟨b, msg⟩
  cases b
  · left; simp [PaperAccount.send_order, hv]
  · right
    refine ⟨{ symbol := req.symbol, direction := req.direction, otype := req.otype,
              price := req.price, volume := req.volume, traded := 0,
              status := .NOTTRADED },
            by simp [PaperAccount.send_order, hv], rfl, rfl, ?_⟩
    exact validate_true_volume a req (by rw [hv])

theorem cancel_order_positions (a : PaperAccount) (oid : ℕ) :
    (a.cancel_order oid).positions = a.positions := by
  rcases hv : ordFind? a.active_orders oid with _ | order <;>
    simp [PaperAccount.cancel_order, hv]

theorem cancel_order_G (a : PaperAccount) (oid : ℕ) :
    acctG (a.cancel_order oid) = acctG a := by
  rcases hv : ordFind? a.active_orders oid with _ | order
  · simp [PaperAccount.cancel_order, hv]
  · by_cases hd : order.direction = .LONG
    · simp only [PaperAccount.cancel_order, hv, hd, acctG, invariantValue_eq, if_pos]
      ring
    · simp [PaperAccount.cancel_order, hv, hd, acctG, invariantValue_eq]

theorem cancel_order_active_sub (a : PaperAccount) (oid : ℕ) :
    ∀ e ∈ (a.cancel_order oid).active_orders, e ∈ a.active_orders := by
  rcases hv : ordFind? a.active_orders oid with _ | order
  · simp [PaperAccount.cancel_order, hv]
  · intro e he
    by_cases hd : order.direction = .LONG <;>
      [skip; skip] <;>
      · simp only [PaperAccount.cancel_order, hv] at he
        exact (List.mem_filter.mp he).1

theorem calculate_pnl_volume (p : PaperPosition) (c : ℚ) :
    (p.calculate_pnl c).volume = p.volume := by
  simp only [PaperPosition.calculate_pnl]
  split <;> rfl

theorem calculate_pnl_val (p : PaperPosition) (c : ℚ) :
    posVal (p.calculate_pnl c) = posVal p := by
  simp only [PaperPosition.calculate_pnl, posVal]
  split <;> rfl

theorem pnlPositions_sum (l : List (String × PaperPosition)) (sym : String) (c : ℚ) :
    posSum (if (alistFind? l sym).isSome then
        alistUpdate l sym PaperPosition.init (fun p => p.calculate_pnl c)
      else l) = posSum l := by
  split
  · rw [posSum_update, calculate_pnl_val]
    ring
  · rfl

theorem pnlPositions_nonneg (l : List (String × PaperPosition)) (sym : String) (c : ℚ)
    (h : ∀ e ∈ l, 0 ≤ e.2.volume) :
    ∀ e ∈ (if (alistFind? l sym).isSome then
        alistUpdate l sym PaperPosition.init (fun p => p.calculate_pnl c)
      else l), 0 ≤ e.2.volume := by
  split
  · exact alistUpdate_nonneg _ _ _ h (fun p hp => by rwa [calculate_pnl_volume])
  · exact h

theorem step_G (a : PaperAccount) (ev : Event) (h : AccInv a) :
    acctG (a.step ev) = acctG a + a.stepRealized ev ∧ AccInv (a.step ev) := by
  obtain ⟨hpos, hact⟩ := h
  cases ev with
  | send req =>
    refine ⟨?_, ?_, ?_⟩
    · show acctG (a.send_order req).2 = _
      rw [send_order_G]
      simp [PaperAccount.stepRealized]
    · show ∀ e ∈ (a.send_order req).2.positions, _
      rw [send_order_positions]; exact hpos
    · show ∀ e ∈ (a.send_order req).2.active_orders, _
      rcases send_order_active a req with heq | ⟨order, heq, ht, hvol, hge⟩
      · rw [heq]; exact hact
      · rw [heq]
        intro e he
        rcases List.mem_append.mp he with h1 | h2
        · exact hact e h1
        · simp at h2
          rw [h2, ht, hvol]
          linarith
  | cancel oid =>
    refine ⟨?_, ?_, ?_⟩
    · show acctG (a.cancel_order oid) = _
      rw [cancel_order_G]
      simp [PaperAccount.stepRealized]
    · show ∀ e ∈ (a.cancel_order oid).positions, _
      rw [cancel_order_positions]; exact hpos
    · exact fun e he => hact e (cancel_order_active_sub a oid e he)
  | tickEv s t =>
    have hpos' :
        ∀ e ∈ (if (alistFind? a.positions s).isSome then
            alistUpdate a.positions s PaperPosition.init (fun p => p.calculate_pnl t.last_price)
          else a.positions), 0 ≤ e.2.volume := pnlPositions_nonneg _ _ _ hpos
    obtain ⟨hG, hP, hA⟩ :=
      matchFold_G s t a.active_orders
        { a with positions :=
            if (alistFind? a.positions s).isSome then
              alistUpdate a.positions s PaperPosition.init (fun p => p.calculate_pnl t.last_price)
            else a.positions }
        ([] : List ℕ) 0 hact hpos'
    simp only [PaperAccount.step, PaperAccount.update_tick, PaperAccount.match_orders,
      PaperAccount.stepRealized]
    rw [← foldR_fst s t a.active_orders _ 0]
    refine ⟨?_, ?_, ?_⟩
    · simp only [acctG, invariantValue_eq] at hG ⊢
      simp only at hA
      rw [hG]
      simp only [pnlPositions_sum]
      ring
    · exact hP
    · intro e he
      have hmem := (List.mem_filter.mp he).1
      rw [hA] at hmem
      exact hact e hmem

theorem run_G (evs : List Event) :
    ∀ a : PaperAccount, AccInv a →
      acctG (a.run evs) = acctG a + a.runRealized evs ∧ AccInv (a.run evs) := by
  induction evs with
  | nil => intro a h; exact ⟨by simp [PaperAccount.run, PaperAccount.runRealized], h⟩
  | cons e rest ih =>
    intro a h
    obtain ⟨h1, h2⟩ := step_G a e h
    obtain ⟨ih1, ih2⟩ := ih (a.step e) h2
    refine ⟨?_, ih2⟩
    show acctG ((a.step e).run rest) = _
    rw [ih1, h1, PaperAccount.runRealized]
    ring

theorem long_ne_short : (Direction.LONG = Direction.SHORT) ↔ False := by simp

theorem short_ne_long : (Direction.SHORT = Direction.LONG) ↔ False := by simp

/-- C1 counterexample: after buying 1000 shares at 10.50 (filled at 10.5105)
and selling them at 20.00 (filled at 19.98), the quantity
balance + frozen + Σ volume × avg_price does not equal its initial value minus
the commissions and stamp duties charged: the realized trading profit of the
sell also enters the balance.  This refutes the claim that the quantity is
conserved up to fees across every interleaving of buys, sells and cancels. -/
theorem C1_fee_only_conservation_counterexample :
    (exAccount.run exEvents).invariantValue
      ≠ exAccount.invariantValue
        - ((exAccount.run exEvents).total_commission - exAccount.total_commission) := by
  norm_num [long_ne_short, short_ne_long, exAccount, exEvents, exBuyReq, exSellReq, exTick1,
    exTick2, PaperAccount.run, PaperAccount.step, PaperAccount.send_order,
    PaperAccount.validate_order, multipleOf100, PaperAccount.update_tick,
    PaperAccount.match_orders, matchStep, fillPriceOf, canFillPrice, PaperAccount.execute_trade,
    executedOrder, alistUpdate, alistFind?, ordSet, ordFind?, PaperAccount.cancel_order,
    PaperPosition.update_trade, PaperPosition.calculate_pnl, PaperPosition.init, initAccount,
    PaperAccount.invariantValue]

/-- C1 (amended): across any sequence of orders, fills and cancellations,
balance + frozen + Σ volume × avg_price changes exactly by the realized
profit-and-loss of the sell fills minus all commissions and stamp duties
charged; for sequences without sell fills (`runRealized` is then zero) the
quantity is conserved up to fees exactly as originally claimed.  The
hypothesis `AccInv` holds for every freshly connected account and is
preserved by every step. -/
theorem C1_conservation_with_realized_pnl (a : PaperAccount) (evs : List Event)
    (h : AccInv a) :
    (a.run evs).invariantValue
      = a.invariantValue - ((a.run evs).total_commission - a.total_commission)
        + a.runRealized evs := by
  have hG := (run_G evs a h).1
  simp only [acctG] at hG
  linarith

/-- Witness for C1 (amended) at the concrete buy/fill/sell/fill sequence. -/
theorem C1_conservation_with_realized_pnl_witness :
    (exAccount.run exEvents).invariantValue
      = exAccount.invariantValue
        - ((exAccount.run exEvents).total_commission - exAccount.total_commission)
        + exAccount.runRealized exEvents :=
  C1_conservation_with_realized_pnl exAccount exEvents
    (by constructor <;> simp [exAccount, initAccount])

/-- C2: a resting limit buy fills exactly when the best ask is positive and at
or below the limit, or the last price is at or below the limit, at the limit
price marked up by the slippage fraction; sells are symmetric with a
markdown.  Concretely (capital 100,000, commission 0.03%, stamp duty 0.1%,
slippage 0.1%): a limit buy of 1000 @ 10.50 freezes 10,503.15 leaving
89,496.85, and a tick with ask 10.48 fills it at 10.50 × 1.001 = 10.5105
(the position's average price after the single fill). -/
theorem C2_limit_fill_policy :
    (∀ (a : PaperAccount) (o : OrderData) (t : TickData),
      o.otype = .LIMIT → o.direction = .LONG →
      (fillPriceOf a o t = some (o.price * (1 + a.slippage))
        ↔ ((t.ask_price_1 > 0 ∧ t.ask_price_1 ≤ o.price) ∨ t.last_price ≤ o.price)))
    ∧ (∀ (a : PaperAccount) (o : OrderData) (t : TickData),
      o.otype = .LIMIT → o.direction = .SHORT →
      (fillPriceOf a o t = some (o.price * (1 - a.slippage))
        ↔ ((t.bid_price_1 > 0 ∧ t.bid_price_1 ≥ o.price) ∨ t.last_price ≥ o.price)))
    ∧ (exAfterBuy.frozen = 1050315/100
       ∧ exAfterBuy.balance = 1789937/20
       ∧ alistFind? (exAfterBuy.update_tick "600000.SSE" exTick1).positions "600000.SSE"
           = some { volume := 1000, frozen := 0, avg_price := 21021/2000, pnl := 0 }
       ∧ ordFind? (exAfterBuy.update_tick "600000.SSE" exTick1).orders 1
           = some { exBuyOrder with traded := 1000, status := .ALLTRADED }) := by
  refine ⟨?_, ?_, ?_⟩
  · intro a o t hty hdir
    simp only [fillPriceOf, canFillPrice, hty, hdir]
    by_cases h1 : t.ask_price_1 > 0 ∧ t.ask_price_1 ≤ o.price
    · simp [h1]
    · by_cases h2 : t.last_price ≤ o.price
      · simp [h1, h2]
      · simp [h1, h2]
  · intro a o t hty hdir
    simp only [fillPriceOf, canFillPrice, hty, hdir]
    by_cases h1 : t.bid_price_1 > 0 ∧ t.bid_price_1 ≥ o.price
    · simp [h1]
    · by_cases h2 : t.last_price ≥ o.price
      · simp [h1, h2]
      · simp [h1, h2]
  · norm_num [long_ne_short, short_ne_long, exAccount, exBuyReq, exTick1, exAfterBuy, exBuyOrder,
      PaperAccount.send_order, PaperAccount.validate_order, multipleOf100,
      PaperAccount.update_tick, PaperAccount.match_orders, matchStep, fillPriceOf,
      canFillPrice, PaperAccount.execute_trade, executedOrder, alistUpdate, alistFind?, ordSet,
      ordFind?, PaperPosition.update_trade, PaperPosition.calculate_pnl,
      PaperPosition.init, initAccount]

/-- Witness for C2 at the concrete buy (tick ask 10.48 vs limit 10.50) and
sell (tick bid 20.00 vs limit 20.00) instances. -/
theorem C2_limit_fill_policy_witness :
    (fillPriceOf exAfterBuy exBuyOrder exTick1
        = some (exBuyOrder.price * (1 + exAfterBuy.slippage))
      ↔ ((exTick1.ask_price_1 > 0 ∧ exTick1.ask_price_1 ≤ exBuyOrder.price)
          ∨ exTick1.last_price ≤ exBuyOrder.price))
    ∧ (fillPriceOf exAccount exSellOrder exTick2
        = some (exSellOrder.price * (1 - exAccount.slippage))
      ↔ ((exTick2.bid_price_1 > 0 ∧ exTick2.bid_price_1 ≥ exSellOrder.price)
          ∨ exTick2.last_price ≥ exSellOrder.price)) :=
  ⟨C2_limit_fill_policy.1 exAfterBuy exBuyOrder exTick1 rfl rfl,
   C2_limit_fill_policy.2.1 exAccount exSellOrder exTick2 rfl rfl⟩

theorem multipleOf100_iff (v : ℚ) :
    multipleOf100 v = true ↔ ∃ k : ℤ, v = 100 * k := by
  rw [multipleOf100, decide_eq_true_eq]
  constructor
  · intro h
    have h2 : ((v / 100).num : ℚ) = v / 100 := (Rat.den_eq_one_iff _).mp h
    refine ⟨(v / 100).num, ?_⟩
    field_simp at h2
    linarith
  · rintro ⟨k, rfl⟩
    have h3 : (100 : ℚ) * (k : ℚ) / 100 = (k : ℚ) := by field_simp
    rw [h3, Rat.den_intCast]

/-- C3: an order whose volume is below 100 or not an exact multiple of 100 is
rejected: `send_order` returns the empty identifier, validation produces a
non-empty reason, and balance, frozen, positions and the order books are all
left unchanged. -/
theorem C3_lot_size_rejection (a : PaperAccount) (req : OrderRequest)
    (h : req.volume < 100 ∨ ¬ ∃ k : ℤ, req.volume = 100 * k) :
    (a.send_order req).1 = ""
    ∧ (a.validate_order req).1 = false
    ∧ (a.validate_order req).2 ≠ ""
    ∧ (a.send_order req).2.balance = a.balance
    ∧ (a.send_order req).2.frozen = a.frozen
    ∧ (a.send_order req).2.positions = a.positions
    ∧ (a.send_order req).2.orders = a.orders
    ∧ (a.send_order req).2.active_orders = a.active_orders := by
  have hval : a.validate_order req = (false, "Volume must be at least 100 shares")
      ∨ a.validate_order req = (false, "Volume must be multiple of 100") := by
    rcases h with h1 | h2
    · left
      simp [PaperAccount.validate_order, h1]
    · have hm : ¬ multipleOf100 req.volume = true :=
        fun hc => h2 ((multipleOf100_iff _).mp hc)
      by_cases h1 : req.volume < 100
      · left
        simp [PaperAccount.validate_order, h1]
      · right
        rw [PaperAccount.validate_order, if_neg h1, if_pos hm]
  rcases hval with h' | h' <;>
    simp [PaperAccount.send_order, h']

/-- Witness for C3: 150 shares (not a round lot) is rejected without touching
the account. -/
theorem C3_lot_size_rejection_witness :
    (exAccount.send_order exOddLotReq).1 = ""
    ∧ (exAccount.validate_order exOddLotReq).1 = false
    ∧ (exAccount.validate_order exOddLotReq).2 ≠ ""
    ∧ (exAccount.send_order exOddLotReq).2.balance = exAccount.balance
    ∧ (exAccount.send_order exOddLotReq).2.frozen = exAccount.frozen
    ∧ (exAccount.send_order exOddLotReq).2.positions = exAccount.positions
    ∧ (exAccount.send_order exOddLotReq).2.orders = exAccount.orders
    ∧ (exAccount.send_order exOddLotReq).2.active_orders = exAccount.active_orders :=
  C3_lot_size_rejection exAccount exOddLotReq
    (Or.inr (by
      rintro ⟨k, hk⟩
      simp only [exOddLotReq] at hk
      have h2 : ((2 * k : ℤ) : ℚ) = 3 := by push_cast; linarith
      have h3 : (2 * k : ℤ) = 3 := by exact_mod_cast h2
      omega))

theorem ordFind?_ordSet (l : List (ℕ × OrderData)) (k : ℕ) (v : OrderData) :
    ordFind? (ordSet l k v) k = some v := by
  induction l with
  | nil => simp [ordSet, ordFind?]
  | cons e rest ih =>
    by_cases hk : e.1 = k
    · simp [ordSet, ordFind?, hk]
    · simp [ordSet, ordFind?, hk, ih]

theorem ordFind?_filter_ne (l : List (ℕ × OrderData)) (oid : ℕ) :
    ordFind? (l.filter (fun e => e.1 ≠ oid)) oid = none := by
  induction l with
  | nil => simp [ordFind?]
  | cons e rest ih =>
    by_cases hk : e.1 = oid
    · simpa [List.filter, hk] using ih
    · simpa [List.filter, hk, ordFind?] using ih

theorem ordFind?_append_left_none (l1 l2 : List (ℕ × OrderData)) (k : ℕ)
    (h : ordFind? l1 k = none) :
    ordFind? (l1 ++ l2) k = ordFind? l2 k := by
  induction l1 with
  | nil => simp
  | cons e rest ih =>
    by_cases hk : e.1 = k
    · rw [ordFind?] at h
      simp only [hk, if_pos rfl] at h
      cases h
    · rw [ordFind?] at h
      simp only [hk, if_neg hk] at h
      obtain ⟨e1, e2⟩ := e
      simp only [List.cons_append, ordFind?] at *
      rw [if_neg hk] at *
      exact ih h

theorem cancel_order_buy_effects (a : PaperAccount) (oid : ℕ) (order : OrderData)
    (hfind : ordFind? a.active_orders oid = some order)
    (hdir : order.direction = .LONG) :
    (a.cancel_order oid).balance
        = a.balance + (order.volume - order.traded) * order.price * (1 + a.commission_rate)
    ∧ (a.cancel_order oid).frozen
        = a.frozen - (order.volume - order.traded) * order.price * (1 + a.commission_rate)
    ∧ ordFind? (a.cancel_order oid).orders oid = some { order with status := .CANCELLED }
    ∧ ordFind? (a.cancel_order oid).active_orders oid = none := by
  refine ⟨?_, ?_, ?_, ?_⟩
  · simp only [PaperAccount.cancel_order, hfind, hdir, if_pos]
    ring
  · simp only [PaperAccount.cancel_order, hfind, hdir, if_pos]
    ring
  · simp only [PaperAccount.cancel_order, hfind]
    exact ordFind?_ordSet _ _ _
  · simp only [PaperAccount.cancel_order, hfind]
    exact ordFind?_filter_ne _ _

/-- C4: cancelling an active buy order returns exactly the reservation of the
unfilled remainder, (volume − traded) × price × (1 + commission rate), from
frozen to balance and marks the order CANCELLED while removing it from the
active set; submitting a buy and cancelling it before any fill restores
balance and frozen exactly; cancelling an order that is not active changes
nothing. -/
theorem C4_cancel_unfreeze :
    (∀ (a : PaperAccount) (oid : ℕ) (order : OrderData),
      ordFind? a.active_orders oid = some order → order.direction = .LONG →
      (a.cancel_order oid).balance
          = a.balance + (order.volume - order.traded) * order.price * (1 + a.commission_rate)
      ∧ (a.cancel_order oid).frozen
          = a.frozen - (order.volume - order.traded) * order.price * (1 + a.commission_rate)
      ∧ ordFind? (a.cancel_order oid).orders oid = some { order with status := .CANCELLED }
      ∧ ordFind? (a.cancel_order oid).active_orders oid = none)
    ∧ (∀ (a : PaperAccount) (req : OrderRequest),
      req.direction = .LONG → (a.validate_order req).1 = true →
      ordFind? a.active_orders (a.order_count + 1) = none →
      ((a.send_order req).2.cancel_order (a.order_count + 1)).balance = a.balance
      ∧ ((a.send_order req).2.cancel_order (a.order_count + 1)).frozen = a.frozen)
    ∧ (∀ (a : PaperAccount) (oid : ℕ),
      ordFind? a.active_orders oid = none → a.cancel_order oid = a) := by
  refine ⟨?_, ?_, ?_⟩
  · exact cancel_order_buy_effects
  · intro a req hdir hval hfind
    rcases hv : a.validate_order req with ⟨b, msg⟩
    rw [hv] at hval
    subst hval
    have hsend :
        (a.send_order req).2
          = { a with order_count := a.order_count + 1,
                     balance := a.balance - (req.price * req.volume
                        + req.price * req.volume * a.commission_rate),
                     frozen := a.frozen + (req.price * req.volume
                        + req.price * req.volume * a.commission_rate),
                     orders := a.orders ++
                        [(a.order_count + 1,
                          { symbol := req.symbol, direction := req.direction,
                            otype := req.otype, price := req.price, volume := req.volume,
                            traded := 0, status := .NOTTRADED })],
                     active_orders := a.active_orders ++
                        [(a.order_count + 1,
                          { symbol := req.symbol, direction := req.direction,
                            otype := req.otype, price := req.price, volume := req.volume,
                            traded := 0, status := .NOTTRADED })] } := by
      simp [PaperAccount.send_order, hv, hdir]
    have hfind3 :
        ordFind? (a.active_orders ++
            [(a.order_count + 1,
              { symbol := req.symbol, direction := req.direction,
                otype := req.otype, price := req.price, volume := req.volume,
                traded := 0, status := .NOTTRADED })]) (a.order_count + 1)
          = some { symbol := req.symbol, direction := req.direction,
                   otype := req.otype, price := req.price, volume := req.volume,
                   traded := 0, status := .NOTTRADED } := by
      rw [ordFind?_append_left_none _ _ _ hfind]
      simp [ordFind?]
    have hfind2 :
        ordFind? ((a.send_order req).2.active_orders) (a.order_count + 1)
          = some { symbol := req.symbol, direction := req.direction,
                   otype := req.otype, price := req.price, volume := req.volume,
                   traded := 0, status := .NOTTRADED } := by
      rw [hsend]
      exact hfind3
    obtain ⟨hb, hf, hor, hac⟩ :=
      cancel_order_buy_effects (a.send_order req).2 (a.order_count + 1) _ hfind2 hdir
    constructor
    · rw [hb]
      simp [hsend]
      ring
    · rw [hf]
      simp [hsend]
      ring
  · intro a oid hfind
    simp [PaperAccount.cancel_order, hfind]

/-- Witness for C4 at the concrete post-submission state: cancelling the
resting 1000-share buy restores the initial cash exactly, and cancelling a
non-existent order id is a no-op. -/
theorem C4_cancel_unfreeze_witness :
    ((exAfterBuy.cancel_order 1).balance
        = exAfterBuy.balance
          + (exBuyOrder.volume - exBuyOrder.traded) * exBuyOrder.price
            * (1 + exAfterBuy.commission_rate)
     ∧ (exAfterBuy.cancel_order 1).frozen
        = exAfterBuy.frozen
          - (exBuyOrder.volume - exBuyOrder.traded) * exBuyOrder.price
            * (1 + exAfterBuy.commission_rate)
     ∧ ordFind? (exAfterBuy.cancel_order 1).orders 1
        = some { exBuyOrder with status := .CANCELLED }
     ∧ ordFind? (exAfterBuy.cancel_order 1).active_orders 1 = none)
    ∧ (((exAccount.send_order exBuyReq).2.cancel_order (exAccount.order_count + 1)).balance
        = exAccount.balance
       ∧ ((exAccount.send_order exBuyReq).2.cancel_order (exAccount.order_count + 1)).frozen
        = exAccount.frozen)
    ∧ exAccount.cancel_order 5 = exAccount :=
  ⟨C4_cancel_unfreeze.1 exAfterBuy 1 exBuyOrder
      (by norm_num [exAfterBuy, exAccount, exBuyReq, exBuyOrder, PaperAccount.send_order,
        PaperAccount.validate_order, multipleOf100, initAccount, ordFind?]) rfl,
   C4_cancel_unfreeze.2.1 exAccount exBuyReq rfl
      (by norm_num [exAccount, exBuyReq, PaperAccount.validate_order, multipleOf100,
        initAccount])
      (by simp [exAccount, initAccount, ordFind?]),
   C4_cancel_unfreeze.2.2 exAccount 5 (by simp [exAccount, initAccount, ordFind?])⟩

/-- C9: a position update never drives the volume negative — a buy adds the
trade volume and recomputes the average price as the volume-weighted mean, a
sell subtracts it clamping at zero — and a position emptied to volume zero has
its average price reset to zero; buying 1000 @ 10 then 500 @ 11 yields
volume 1500 at average (1000×10 + 500×11)/1500. -/
theorem C9_position_update (p : PaperPosition) (d : Direction) (v price : ℚ)
    (hp : 0 ≤ p.volume) (hv : 0 < v) :
    0 ≤ (p.update_trade d v price).volume
    ∧ ((p.update_trade d v price).volume = 0 → (p.update_trade d v price).avg_price = 0)
    ∧ (d = Direction.LONG →
        (p.update_trade d v price).avg_price
          = (p.avg_price * p.volume + price * v) / (p.volume + v))
    ∧ ((PaperPosition.init.update_trade .LONG 1000 10).update_trade .LONG 500 11).volume = 1500
    ∧ ((PaperPosition.init.update_trade .LONG 1000 10).update_trade .LONG 500 11).avg_price
        = (1000 * 10 + 500 * 11) / 1500 := by
  have hsum : 0 < p.volume + v := by linarith
  refine ⟨?_, ?_, ?_, ?_, ?_⟩
  · exact update_trade_nonneg d v price (le_of_lt hv) p hp
  · intro h0
    cases d with
    | LONG =>
      simp only [PaperPosition.update_trade, if_pos hsum] at h0
      linarith
    | SHORT =>
      simp only [PaperPosition.update_trade] at h0 ⊢
      by_cases hle : p.volume - v ≤ 0
      · simp [hle]
      · rw [if_neg hle] at h0
        simp only at h0
        exact absurd (le_of_eq h0) hle
  · intro hd
    subst hd
    simp only [PaperPosition.update_trade, if_pos hsum]
  · norm_num [PaperPosition.update_trade, PaperPosition.init]
  · norm_num [PaperPosition.update_trade, PaperPosition.init]

/-- Witness for C9: selling 400 of a 1000-share position at 12. -/
theorem C9_position_update_witness :
    0 ≤ (PaperPosition.mk 1000 0 10 0 |>.update_trade .SHORT 400 12).volume
    ∧ ((PaperPosition.mk 1000 0 10 0 |>.update_trade .SHORT 400 12).volume = 0 →
        (PaperPosition.mk 1000 0 10 0 |>.update_trade .SHORT 400 12).avg_price = 0)
    ∧ (Direction.SHORT = Direction.LONG →
        (PaperPosition.mk 1000 0 10 0 |>.update_trade .SHORT 400 12).avg_price
          = ((PaperPosition.mk 1000 0 10 0).avg_price * (PaperPosition.mk 1000 0 10 0).volume
              + 12 * 400) / ((PaperPosition.mk 1000 0 10 0).volume + 400))
    ∧ ((PaperPosition.init.update_trade .LONG 1000 10).update_trade .LONG 500 11).volume = 1500
    ∧ ((PaperPosition.init.update_trade .LONG 1000 10).update_trade .LONG 500 11).avg_price
        = (1000 * 10 + 500 * 11) / 1500 :=
  C9_position_update (PaperPosition.mk 1000 0 10 0) .SHORT 400 12
    (by norm_num) (by norm_num)

theorem matchStep_active (s : String) (t : TickData) (acc : PaperAccount × List ℕ)
    (e : ℕ × OrderData) :
    ((matchStep s t acc e).1).active_orders = acc.1.active_orders := by
  by_cases hsym : e.2.symbol ≠ s
  · simp [matchStep, hsym]
  · rcases hfp : fillPriceOf acc.1 e.2 t with _ | fp
    · simp [matchStep, hsym, hfp]
    · simp [matchStep, hsym, hfp, execute_trade_active]

theorem matchFold_active (s : String) (t : TickData) (l : List (ℕ × OrderData)) :
    ∀ x : PaperAccount × List ℕ,
      ((l.foldl (matchStep s t) x).1).active_orders = x.1.active_orders := by
  induction l with
  | nil => intro x; rfl
  | cons e rest ih =>
    intro x
    rw [List.foldl_cons, ih, matchStep_active]

theorem matchFold_rem_mono (s : String) (t : TickData) (l : List (ℕ × OrderData)) :
    ∀ (x : PaperAccount × List ℕ) (oid : ℕ),
      oid ∈ x.2 → oid ∈ (l.foldl (matchStep s t) x).2 := by
  induction l with
  | nil => intro x oid h; exact h
  | cons e rest ih =>
    intro x oid h
    rw [List.foldl_cons]
    apply ih
    by_cases hsym : e.2.symbol ≠ s
    · simpa [matchStep, hsym] using h
    · rcases hfp : fillPriceOf x.1 e.2 t with _ | fp
      · simpa [matchStep, hsym, hfp] using h
      · simp [matchStep, hsym, hfp]
        exact Or.inl h

theorem fillPriceOf_isSome (a : PaperAccount) (o : OrderData) (t : TickData)
    (h : (canFillPrice o t).isSome = true) : (fillPriceOf a o t).isSome = true := by
  rcases hcf : canFillPrice o t with _ | fp
  · rw [hcf] at h
    simp at h
  · cases hdir : o.direction <;> simp [fillPriceOf, hcf, hdir]

theorem matchFold_fill_removed (s : String) (t : TickData) (l : List (ℕ × OrderData)) :
    ∀ (x : PaperAccount × List ℕ) (oid : ℕ) (order : OrderData),
      (oid, order) ∈ l → order.symbol = s → (canFillPrice order t).isSome = true →
      oid ∈ (l.foldl (matchStep s t) x).2 := by
  induction l with
  | nil => intro x oid order h _ _; cases h
  | cons e rest ih =>
    intro x oid order hmem hsym hfill
    rw [List.foldl_cons]
    rcases List.mem_cons.mp hmem with h1 | h2
    · apply matchFold_rem_mono
      have hs2 : ¬ e.2.symbol ≠ s := by rw [← h1]; simp [hsym]
      have hfp := fillPriceOf_isSome x.1 e.2 t (by rw [← h1]; exact hfill)
      rcases hfp2 : fillPriceOf x.1 e.2 t with _ | fp
      · rw [hfp2] at hfp
        simp at hfp
      · simp only [matchStep, hs2, if_false, hfp2]
        have : e.1 = oid := by rw [← h1]
        simp [this]
    · exact ih _ oid order h2 hsym hfill

theorem ordFind?_filter_none (l : List (ℕ × OrderData)) (p : ℕ × OrderData → Bool)
    (oid : ℕ) (hp : ∀ e : ℕ × OrderData, e.1 = oid → p e = false) :
    ordFind? (l.filter p) oid = none := by
  induction l with
  | nil => rfl
  | cons e rest ih =>
    rw [List.filter_cons]
    cases hpe : p e
    · simpa using ih
    · have h1 : e.1 ≠ oid := by
        intro hq
        rw [hp e hq] at hpe
        cases hpe
      obtain ⟨k, v⟩ := e
      simpa [ordFind?, h1] using ih

/-- C10 (implicit): a matched order is always filled for its entire remaining
volume in one trade — the stored order has traded = volume and status
ALLTRADED (PARTTRADED is unreachable from the matching path) — the tick
handler only ever shrinks the active set, and an active order whose symbol
matches the tick and whose fill condition holds is gone from the active set
afterwards, so it can never trade again. -/
theorem C10_full_fill_single_trade :
    (∀ order : OrderData,
      (executedOrder order).traded = order.volume
      ∧ (executedOrder order).status = Status.ALLTRADED)
    ∧ (∀ (a : PaperAccount) (s : String) (t : TickData) (e : ℕ × OrderData),
        e ∈ (a.update_tick s t).active_orders → e ∈ a.active_orders)
    ∧ (∀ (a : PaperAccount) (s : String) (t : TickData) (oid : ℕ) (order : OrderData),
        (oid, order) ∈ a.active_orders → order.symbol = s →
        (canFillPrice order t).isSome = true →
        ordFind? (a.update_tick s t).active_orders oid = none) := by
  refine ⟨?_, ?_, ?_⟩
  · intro order
    have h : order.traded + (order.volume - order.traded) = order.volume := by ring
    constructor
    · simp [executedOrder, h]
    · simp [executedOrder, h]
  · intro a s t e he
    simp only [PaperAccount.update_tick, PaperAccount.match_orders] at he
    have he2 := (List.mem_filter.mp he).1
    rw [matchFold_active] at he2
    exact he2
  · intro a s t oid order hmem hsym hfill
    simp only [PaperAccount.update_tick, PaperAccount.match_orders]
    apply ordFind?_filter_none
    intro e he
    rw [he]
    have hoid := matchFold_fill_removed s t
      a.active_orders
      ({ a with positions :=
          if (alistFind? a.positions s).isSome then
            alistUpdate a.positions s PaperPosition.init (fun p => p.calculate_pnl t.last_price)
          else a.positions }, ([] : List ℕ)) oid order hmem hsym hfill
    simpa using hoid

/-- Witness for C10: the resting 1000-share buy is untouched by a
non-matching tick, fully filled (ALLTRADED) by a matching one, and absent
from the active set afterwards. -/
theorem C10_full_fill_single_trade_witness :
    ((executedOrder exBuyOrder).traded = exBuyOrder.volume
      ∧ (executedOrder exBuyOrder).status = Status.ALLTRADED)
    ∧ (1, exBuyOrder) ∈ exAfterBuy.active_orders
    ∧ ordFind? (exAfterBuy.update_tick "600000.SSE" exTick1).active_orders 1 = none :=
  ⟨C10_full_fill_single_trade.1 exBuyOrder,
   C10_full_fill_single_trade.2.1 exAfterBuy "600000.SSE" exTickNoFill (1, exBuyOrder)
     (by norm_num [long_ne_short, short_ne_long, exAfterBuy, exAccount, exBuyReq, exBuyOrder,
        exTickNoFill, PaperAccount.send_order, PaperAccount.validate_order, multipleOf100,
        PaperAccount.update_tick, PaperAccount.match_orders, matchStep, fillPriceOf,
        canFillPrice, alistFind?, alistUpdate, PaperPosition.calculate_pnl, PaperPosition.init,
        initAccount]),
   C10_full_fill_single_trade.2.2 exAfterBuy "600000.SSE" exTick1 1 exBuyOrder
     (by norm_num [exAfterBuy, exAccount, exBuyReq, exBuyOrder, PaperAccount.send_order,
        PaperAccount.validate_order, multipleOf100, initAccount])
     rfl
     (by norm_num [canFillPrice, exBuyOrder, exTick1])⟩

/-- C5: on a non-empty signal batch, `apply_filters` first updates drawdown
tracking — the peak is monotone non-decreasing and, while positive, the
drawdown equals (peak − current)/peak — and whenever the freshly computed
drawdown strictly exceeds max_drawdown, the result is empty regardless of
input size. -/
theorem C5_drawdown_gating :
    (∀ (r : RiskManager) (pv : ℚ),
      r.peak_portfolio_value ≤ (r.update_tracking pv).peak_portfolio_value)
    ∧ (∀ (r : RiskManager) (pv : ℚ),
      0 < (r.update_tracking pv).peak_portfolio_value →
      (r.update_tracking pv).current_drawdown
        = ((r.update_tracking pv).peak_portfolio_value - pv)
          / (r.update_tracking pv).peak_portfolio_value)
    ∧ (∀ (r : RiskManager) (signals : List Signal) (pos : List (String × ℚ)) (pv : ℚ),
      signals ≠ [] → (r.apply_filters signals pos pv).1 = r.update_tracking pv)
    ∧ (∀ (r : RiskManager) (signals : List Signal) (pos : List (String × ℚ)) (pv : ℚ),
      signals ≠ [] →
      (r.update_tracking pv).current_drawdown > r.limits.max_drawdown →
      (r.apply_filters signals pos pv).2 = []) := by
  refine ⟨?_, ?_, ?_, ?_⟩
  · intro r pv
    simp only [RiskManager.update_tracking]
    split
    · rename_i h
      exact le_of_lt h
    · exact le_refl _
  · intro r pv h
    simp only [RiskManager.update_tracking] at h ⊢
    rw [if_pos h]
  · intro r signals pos pv hne
    simp only [RiskManager.apply_filters, if_neg hne]
    split
    · rfl
    · split
      · rfl
      · rfl
  · intro r signals pos pv hne hdd
    have hblock : (r.update_tracking pv).is_trading_allowed = false := by
      simp only [RiskManager.is_trading_allowed]
      rw [if_pos]
      exact hdd
    simp only [RiskManager.apply_filters, if_neg hne, hblock, if_pos]

/-- Witness for C5: peak 120,000 and current equity 95,000 give drawdown
5/24 ≈ 20.8% > 15%, so the filter empties a non-empty signal batch. -/
theorem C5_drawdown_gating_witness :
    exRisk.peak_portfolio_value ≤ (exRisk.update_tracking 95000).peak_portfolio_value
    ∧ (exRisk.update_tracking 95000).current_drawdown
        = ((exRisk.update_tracking 95000).peak_portfolio_value - 95000)
          / (exRisk.update_tracking 95000).peak_portfolio_value
    ∧ (exRisk.apply_filters [exSignalA] [] 95000).1 = exRisk.update_tracking 95000
    ∧ (exRisk.apply_filters [exSignalA] [] 95000).2 = [] :=
  ⟨C5_drawdown_gating.1 exRisk 95000,
   C5_drawdown_gating.2.1 exRisk 95000
     (by norm_num [RiskManager.update_tracking, exRisk]),
   C5_drawdown_gating.2.2.1 exRisk [exSignalA] [] 95000 (by simp),
   C5_drawdown_gating.2.2.2 exRisk [exSignalA] [] 95000 (by simp)
     (by norm_num [RiskManager.update_tracking, exRisk, exLimits])⟩

/-- C6 counterexample: at the position cap (1 non-zero position, cap 1), a
signal for symbol "BBB" passes the filter even though the "BBB" position is
zero — not held — because the code filters on the keys of the positions
dictionary, not on the non-zero ones.  This refutes "passes through only the
signals whose symbol is already held". -/
theorem C6_closed_positions_counterexample :
    (exCapRisk.apply_filters [exSignalB] exPositions 100).2 = [exSignalB]
    ∧ alistFind? exPositions "BBB" = some 0
    ∧ (exPositions.filter (fun v => v.2 ≠ 0)).length = 1
    ∧ exCapRisk.limits.max_positions = 1 := by
  have hAB : ("AAA" = "BBB") ↔ False := by simp
  norm_num [hAB, RiskManager.apply_filters, RiskManager.update_tracking,
    RiskManager.is_trading_allowed, exCapRisk, exCapLimits, exPositions, exSignalB,
    alistFind?, List.filter_cons]

/-- C6 (amended): with trading allowed, once the count of non-zero positions
has reached max_positions the output is the input filtered to signals whose
symbol is a key of the positions dictionary (zero-volume entries included);
otherwise the input truncated to the free slots, preserving order. -/
theorem C6_position_cap_filter (r : RiskManager) (signals : List Signal)
    (pos : List (String × ℚ)) (pv : ℚ)
    (hne : signals ≠ [])
    (hallow : (r.update_tracking pv).is_trading_allowed = true) :
    (r.apply_filters signals pos pv).2
      = if r.limits.max_positions ≤ ((pos.filter (fun v => v.2 ≠ 0)).length : ℤ) then
          signals.filter (fun s => (pos.map Prod.fst).contains s.vt_symbol)
        else
          signals.take (r.limits.max_positions
            - ((pos.filter (fun v => v.2 ≠ 0)).length : ℤ)).toNat := by
  have hblock : ¬ (r.update_tracking pv).is_trading_allowed = false := by
    rw [hallow]
    simp
  simp only [RiskManager.apply_filters, if_neg hne, if_neg hblock]
  by_cases hc : r.limits.max_positions ≤ ((pos.filter (fun v => v.2 ≠ 0)).length : ℤ)
  · rw [if_pos (by simpa [RiskManager.update_tracking] using sub_nonpos.mpr hc),
      if_pos hc]
  · rw [if_neg (by simpa [RiskManager.update_tracking] using
        fun hl => hc (sub_nonpos.mp hl)), if_neg hc]
    simp [RiskManager.update_tracking]

/-- Witness for C6 (amended) at the cap instance: the zero-volume symbol
"BBB" passes because it is a key of the positions dictionary. -/
theorem C6_position_cap_filter_witness :
    (exCapRisk.apply_filters [exSignalB] exPositions 100).2
      = if exCapRisk.limits.max_positions
            ≤ ((exPositions.filter (fun v => v.2 ≠ 0)).length : ℤ) then
          [exSignalB].filter (fun s => (exPositions.map Prod.fst).contains s.vt_symbol)
        else
          [exSignalB].take (exCapRisk.limits.max_positions
            - ((exPositions.filter (fun v => v.2 ≠ 0)).length : ℤ)).toNat :=
  C6_position_cap_filter exCapRisk [exSignalB] exPositions 100 (by simp)
    (by norm_num [RiskManager.update_tracking, RiskManager.is_trading_allowed,
      exCapRisk, exCapLimits])

/-- C7: exit rules are checked in the fixed priority order take-profit,
stop-loss, max-holding-days, then the residual declarative conditions, and
evaluation returns at the first satisfied rule with that rule's reason. -/
theorem C7_exit_priority :
    (∀ (eng : RuleEngine) (ep cp : ℚ) (days : ℤ) (vals : List (String × ℚ)) (tp : ℚ),
      eng.exit_config.take_profit = some tp → tp ≠ 0 → 0 < ep →
      (cp - ep) / ep ≥ tp →
      eng.check_exit_signal ep cp days vals = (true, "take_profit"))
    ∧ (∀ (eng : RuleEngine) (ep cp : ℚ) (days : ℤ) (vals : List (String × ℚ)),
      tpTriggered eng.exit_config.take_profit ep cp = false →
      slTriggered eng.exit_config.stop_loss ep cp = true →
      eng.check_exit_signal ep cp days vals = (true, "stop_loss"))
    ∧ (∀ (eng : RuleEngine) (ep cp : ℚ) (days : ℤ) (vals : List (String × ℚ)),
      tpTriggered eng.exit_config.take_profit ep cp = false →
      slTriggered eng.exit_config.stop_loss ep cp = false →
      hdTriggered eng.exit_config.holding_days days = true →
      eng.check_exit_signal ep cp days vals = (true, "max_holding_days"))
    ∧ (∀ (eng : RuleEngine) (ep cp : ℚ) (days : ℤ) (vals : List (String × ℚ))
        (rule : RuleCondition),
      tpTriggered eng.exit_config.take_profit ep cp = false →
      slTriggered eng.exit_config.stop_loss ep cp = false →
      hdTriggered eng.exit_config.holding_days days = false →
      eng.exit_rules.find?
          (fun rule => ¬ vals.isEmpty && evaluate_condition rule vals) = some rule →
      eng.check_exit_signal ep cp days vals = (true, "condition_" ++ rule.indicator))
    ∧ (∀ (eng : RuleEngine) (ep cp : ℚ) (days : ℤ) (vals : List (String × ℚ)),
      tpTriggered eng.exit_config.take_profit ep cp = false →
      slTriggered eng.exit_config.stop_loss ep cp = false →
      hdTriggered eng.exit_config.holding_days days = false →
      eng.exit_rules.find?
          (fun rule => ¬ vals.isEmpty && evaluate_condition rule vals) = none →
      eng.check_exit_signal ep cp days vals = (false, "")) := by
  refine ⟨?_, ?_, ?_, ?_, ?_⟩
  · intro eng ep cp days vals tp htp hne hep hge
    have h : tpTriggered eng.exit_config.take_profit ep cp = true := by
      simp [tpTriggered, htp, hne, hep, hge]
    simp [RuleEngine.check_exit_signal, h]
  · intro eng ep cp days vals h1 h2
    simp [RuleEngine.check_exit_signal, h1, h2]
  · intro eng ep cp days vals h1 h2 h3
    simp [RuleEngine.check_exit_signal, h1, h2, h3]
  · intro eng ep cp days vals rule h1 h2 h3 h4
    simp [RuleEngine.check_exit_signal, h1, h2, h3]
    simp at h4
    rw [h4]
  · intro eng ep cp days vals h1 h2 h3 h4
    simp [RuleEngine.check_exit_signal, h1, h2, h3]
    simp at h4
    by_cases hv : vals = []
    · rw [List.find?_eq_none.mpr (fun x hx => by simp [hv])]
    · rw [List.find?_eq_none.mpr (fun x hx => by simp [hv, h4 x hx hv])]

/-- Witness for C7: entry 10.00, current 11.00, take-profit 10%: the exit is
the take-profit even though the max-holding-days rule (limit 1 day, held 5)
and the declarative RSI rule would both match. -/
theorem C7_exit_priority_witness :
    exEngine.check_exit_signal 10 11 5 exIndVals = (true, "take_profit")
    ∧ hdTriggered exEngine.exit_config.holding_days 5 = true
    ∧ evaluate_condition exRsiRule exIndVals = true :=
  ⟨C7_exit_priority.1 exEngine 10 11 5 exIndVals (1/10) rfl
      (by norm_num) (by norm_num) (by norm_num),
   by norm_num [hdTriggered, exEngine, exExitConfig],
   by norm_num [evaluate_condition, exRsiRule, exIndVals, alistFind?,
     CondValue.toFloat?]⟩

/-- C8: single-condition evaluation is total and conservative — a missing
indicator or an unconvertible comparand makes the condition false rather than
an error — and entry evaluation always reports strength as the fraction of
satisfied conditions. -/
theorem C8_condition_eval_conservative :
    (∀ (rule : RuleCondition) (vals : List (String × ℚ)),
      alistFind? vals rule.indicator = none → evaluate_condition rule vals = false)
    ∧ (∀ (rule : RuleCondition) (vals : List (String × ℚ)) (s : String),
      rule.value = .str s → alistFind? vals s = none → parseDecimal s = none →
      evaluate_condition rule vals = false)
    ∧ (∀ (eng : RuleEngine) (vals : List (String × ℚ)),
      eng.entry_rules ≠ [] →
      (eng.check_entry_signal vals).2
        = (((eng.entry_rules.map (fun r => evaluate_condition r vals)).count true : ℕ) : ℚ)
          / ((eng.entry_rules.length : ℕ) : ℚ)) := by
  refine ⟨?_, ?_, ?_⟩
  · intro rule vals h
    simp [evaluate_condition, h]
  · intro rule vals s hval hlook hparse
    rcases hfind : alistFind? vals rule.indicator with _ | current
    · simp [evaluate_condition, hfind]
    · simp [evaluate_condition, hfind, hval, hlook, CondValue.toFloat?, hparse]
  · intro eng vals hne
    have hemp : eng.entry_rules.isEmpty = false := by
      simpa [List.isEmpty_iff] using hne
    simp [RuleEngine.check_entry_signal, hemp]

/-- Witness for C8: with values for RSI only, the missing-indicator rule and
the unparsable-comparand rule both evaluate to false, and the two-rule entry
engine still reports its strength fraction. -/
theorem C8_condition_eval_conservative_witness :
    evaluate_condition exBadRule exIndVals = false
    ∧ evaluate_condition exBadCmpRule exIndVals = false
    ∧ (exEntryEngine.check_entry_signal exIndVals).2
        = (((exEntryEngine.entry_rules.map
              (fun r => evaluate_condition r exIndVals)).count true : ℕ) : ℚ)
          / ((exEntryEngine.entry_rules.length : ℕ) : ℚ) :=
  ⟨C8_condition_eval_conservative.1 exBadRule exIndVals
      (by simp [alistFind?, exBadRule, exIndVals]),
   C8_condition_eval_conservative.2.1 exBadCmpRule exIndVals "oops" rfl
      (by simp [alistFind?, exBadCmpRule, exIndVals])
      (by decide),
   C8_condition_eval_conservative.2.2 exEntryEngine exIndVals (by simp [exEntryEngine])⟩

end Lurus
